import Mathlib

/-!
Verification development for the CodeMatrix backend
(`codematrix_backend`): a shallow embedding of the process-state manager
(`core/state_manager.py`), the in-memory index registry and RAG query
pipeline (`core/rag_service.py`), the clone-and-index pipeline
(`core/cloning_service.py`) and the `/clone` endpoint guard
(`main.py`), together with theorems about their behaviour.

External collaborators (git clone, the langchain loader and splitters,
the Chroma vector store, the embedding and completion providers, the
filesystem and the wall clock) are modelled as explicit environment
parameters recording the outcome of each call, exactly at the points
where the source invokes them.
-/

namespace CodeMatrix

/-- First-some choice on options: `oOr (some v) y = some v`, `oOr none y = y`.
Mirrors Python's pattern of keeping an existing value unless a new one is
supplied. -/
def oOr {α : Type} (x y : Option α) : Option α :=
  match x with
  | some v => some v
  | none => y

/-- Last supplied value of a field over a sequence of calls: scans the list
and returns the value delivered by the latest element for which `f` is
`some`. -/
def lastSome {α β : Type} (f : α → Option β) : List α → Option β
  | [] => none
  | a :: rest => oOr (lastSome f rest) (f a)

/-- `l1` is a contiguous run at the start of `l2` (Boolean). -/
def isPrefixB : List Char → List Char → Bool
  | [], _ => true
  | _ :: _, [] => false
  | a :: as, b :: bs => a == b && isPrefixB as bs

/-- `a` occurs contiguously inside `b` (Boolean). -/
def isInfixB (a : List Char) : List Char → Bool
  | [] => isPrefixB a []
  | b :: bs => isPrefixB a (b :: bs) || isInfixB a bs

/-- Models Python's substring test `sub in s`. -/
def pyContains (sub s : String) : Bool :=
  isInfixB sub.data s.data

/-- The characters after the last `/`, accumulating the current segment
and resetting it at every separator. -/
def afterLastSlash (acc : List Char) : List Char → List Char
  | [] => acc
  | c :: cs => if c == '/' then afterLastSlash [] cs else afterLastSlash (acc ++ [c]) cs

/-- Models `os.path.basename`: the segment after the last `/`. -/
def basename (p : String) : String :=
  String.mk (afterLastSlash [] p.data)

/-- If `pat` is a prefix of the list, the remainder after it. -/
def dropPat : List Char → List Char → Option (List Char)
  | [], rest => some rest
  | _ :: _, [] => none
  | p :: ps, c :: cs => if p == c then dropPat ps cs else none

/-- Left-to-right non-overlapping replacement of `pat` by `rep`, with a
structural fuel bounded by the input length (the source only replaces
the non-empty pattern `.git`). -/
def replaceAllAux (pat rep : List Char) : Nat → List Char → List Char
  | _, [] => []
  | 0, l => l
  | fuel + 1, c :: cs =>
    match dropPat pat (c :: cs) with
    | some rest => rep ++ replaceAllAux pat rep fuel rest
    | none => c :: replaceAllAux pat rep fuel cs

/-- Models Python's `str.replace(pat, rep)` for a non-empty pattern. -/
def pyReplace (s pat rep : String) : String :=
  String.mk (replaceAllAux pat.data rep.data s.data.length s.data)

/-- The remainder after the first occurrence of `://`, if any. -/
def dropThroughMarker : List Char → Option (List Char)
  | [] => none
  | ':' :: '/' :: '/' :: rest => some rest
  | _ :: rest => dropThroughMarker rest

/-- Everything from the first `/` onwards. -/
def fromFirstSlash : List Char → List Char
  | [] => []
  | '/' :: rest => '/' :: rest
  | _ :: rest => fromFirstSlash rest

/-- Models the `.path` component of `urllib.parse.urlparse` for the
`scheme://host/path` URL shapes the pipeline receives (a scheme-less
input is treated entirely as path, as `urlparse` does when no `://`
marker is present). -/
def urlPath (url : String) : String :=
  match dropThroughMarker url.data with
  | none => url
  | some rest => String.mk (fromFirstSlash rest)

/-- Repository metadata as collected by `collect_repository_metadata`
(an opaque record as far as the state manager is concerned). -/
abbrev RMeta := List (String × String)

/-- The application state dictionary `app_state` of
`core/state_manager.py`. The timestamp is a `Nat` reading of the wall
clock; `progress` is an exact rational (the source only ever stores the
decimal constants 0.0, 0.1, 0.4, 0.7, 1.0). -/
structure AppState where
  status : String
  message : String
  progress : ℚ
  repo_path : Option String
  repo_name : Option String
  repo_description : String
  repo_metadata : RMeta
  is_processing : Bool
  last_updated : Option Nat
deriving DecidableEq, Repr

/-- The initial `app_state` literal of `core/state_manager.py`. -/
def app_state_init : AppState where
  status := "idle"
  message := "Awaiting repository."
  progress := 0
  repo_path := none
  repo_name := none
  repo_description := "No repository loaded."
  repo_metadata := []
  is_processing := false
  last_updated := none

/-- The keyword arguments of `update_state` (each `none` when the caller
omits it, mirroring the Python default of `None`). -/
structure UpdateArgs where
  status : Option String
  message : Option String
  progress : Option ℚ
  repo_path : Option String
  repo_name : Option String
  repo_metadata : Option RMeta
  is_processing : Option Bool
deriving DecidableEq, Repr

/-- The all-`none` argument record (a call that supplies nothing). -/
def uNone : UpdateArgs :=
  ⟨none, none, none, none, none, none, none⟩

/-- `_get_repo_name_from_path` of `core/state_manager.py`: returns the
basename of the path only when the path is truthy and exists on the
filesystem (`fs` is the `os.path.exists` oracle). -/
def _get_repo_name_from_path (fs : String → Bool) (repo_path : Option String) : Option String :=
  match repo_path with
  | some p => if p ≠ "" ∧ fs p then some (basename p) else none
  | none => none

/-- `update_state` of `core/state_manager.py`: applies exactly the
supplied fields in source order, auto-deriving `repo_name` from a
supplied `repo_path` when no explicit name accompanies it, and stamps
`last_updated` with the current clock reading `now`. -/
def update_state (fs : String → Bool) (now : Nat) (a : UpdateArgs) (s : AppState) : AppState :=
  let s1 := match a.status with
    | some v => { s with status := v }
    | none => s
  let s2 := match a.message with
    | some v => { s1 with message := v }
    | none => s1
  let s3 := match a.progress with
    | some v => { s2 with progress := v }
    | none => s2
  let pr := match a.repo_path with
    | some p =>
      ({ s3 with repo_path := some p },
       match a.repo_name with
       | none => _get_repo_name_from_path fs (some p)
       | some n => some n)
    | none => (s3, a.repo_name)
  let s5 := match pr.2 with
    | some n => { pr.1 with repo_name := some n }
    | none => pr.1
  let s6 := match a.repo_metadata with
    | some v => { s5 with repo_metadata := v }
    | none => s5
  let s7 := match a.is_processing with
    | some v => { s6 with is_processing := v }
    | none => s6
  { s7 with last_updated := some now }

/-- The `repo_name` value a single `update_state` call effectively
stores, if any: the explicit argument wins; otherwise the name derived
from a supplied and existing `repo_path`. -/
def effectiveName (fs : String → Bool) (a : UpdateArgs) : Option String :=
  match a.repo_name with
  | some n => some n
  | none =>
    match a.repo_path with
    | some p => _get_repo_name_from_path fs (some p)
    | none => none

/-- A document as produced by the langchain loader / splitters: text
plus originating source path. -/
structure Doc where
  page_content : String
  source : String
deriving DecidableEq, Repr

/-- An in-memory vector store (Chroma instance) as held by the
registry: the payload is the chunk sequence it was built from. -/
structure Store where
  chunks : List Doc
deriving DecidableEq, Repr

/-- The module-level dictionary `VECTOR_STORES` of
`core/rag_service.py`, as an association list in insertion order
(Python dictionaries iterate in insertion order). -/
abbrev Registry := List (String × Store)

/-- `format_docs` of `core/rag_service.py`. -/
def format_docs (docs : List Doc) : String :=
  String.intercalate "\n\n" (docs.map (fun d => d.page_content))

/-- `store_vector_db` of `core/rag_service.py`:
`VECTOR_STORES[repo_name] = vectorstore` — an existing key keeps its
position and gets the new value, a new key is appended. -/
def store_vector_db (repo_name : String) (vectorstore : Store) : Registry → Registry
  | [] => [(repo_name, vectorstore)]
  | kv :: rest =>
    if kv.1 == repo_name then (repo_name, vectorstore) :: rest
    else kv :: store_vector_db repo_name vectorstore rest

/-- `get_vector_db` of `core/rag_service.py`: `VECTOR_STORES.get(repo_name)`. -/
def get_vector_db (repo_name : String) (reg : Registry) : Option Store :=
  (reg.find? (fun kv => kv.1 == repo_name)).map (fun kv => kv.2)

/-- `clear_vector_db` of `core/rag_service.py`: removes the entry for
`repo_name` if present. -/
def clear_vector_db (repo_name : String) : Registry → Registry
  | [] => []
  | kv :: rest =>
    if kv.1 == repo_name then rest
    else kv :: clear_vector_db repo_name rest

/-- `clear_all_vector_dbs` of `core/rag_service.py`: `VECTOR_STORES.clear()`. -/
def clear_all_vector_dbs (_reg : Registry) : Registry := []

/-- The fuzzy fallback loop of `query_codebase` (lines 57-62): the first
stored key, in iteration order, for which the requested id is a
substring of the stored key or the stored key is a substring of the
requested id. -/
def fuzzyFind (repo_name : String) (reg : Registry) : Option (String × Store) :=
  reg.find? (fun kv => pyContains repo_name kv.1 || pyContains kv.1 repo_name)

/-- The store-resolution step of `query_codebase` (lines 51-62): exact
key lookup first, then the fuzzy containment loop. -/
def lookupStore (repo_name : String) (reg : Registry) : Option Store :=
  match get_vector_db repo_name reg with
  | some v => some v
  | none => (fuzzyFind repo_name reg).map (fun kv => kv.2)

/-- Python truth test `not repo_name` on an optional string: true for
`None` and for the empty string. -/
def pyFalsy (o : Option String) : Bool :=
  match o with
  | some s => s == ""
  | none => true

/-- The result dictionary of `query_codebase`. -/
structure QueryResult where
  answer : String
  retrieved_code : List String
deriving DecidableEq, Repr

/-- Outcomes of the external calls `query_codebase` makes: the
retriever (embedding similarity search) and the completion chain
invocation; each may raise, carrying the message of the raised
exception. -/
structure QueryEnv where
  retrieve : Store → String → Nat → Except String (List Doc)
  complete : String → Except String String

/-- The fixed answer returned when no vector store is loaded. -/
def noRepoAnswer : String :=
  "No repository is currently loaded. Please clone a repository first."

/-- The answer returned when the resolved id matches no stored index,
exactly or fuzzily. -/
def noIndexAnswer (repo_name : String) : String :=
  "No repository index found for '" ++ repo_name ++ "'. Please clone a repository first."

/-- The body of `query_codebase` (`core/rag_service.py`, lines 22-189)
up to but excluding the enclosing `except` handler: reads the state,
falls back to the first registered store when the state names none,
resolves the store exactly then fuzzily, retrieves `top_k` (or
`top_k + 2` under a focus file) chunks and invokes the completion
chain; a raise at retrieval or completion propagates as `.error`. -/
def innerQuery (env : QueryEnv) (st : AppState) (reg : Registry) (question : String)
    (top_k : Nat) (current_file : Option String) (_cursor_position : Option Nat) :
    Except String QueryResult :=
  if reg.isEmpty then
    Except.ok ⟨noRepoAnswer, []⟩
  else
    match (if pyFalsy st.repo_name then (reg.head?).map (fun kv => kv.1) else st.repo_name) with
    | none => Except.ok ⟨noRepoAnswer, []⟩
    | some repo_name =>
      match lookupStore repo_name reg with
      | none => Except.ok ⟨noIndexAnswer repo_name, []⟩
      | some store =>
        let k := if current_file.isSome then top_k + 2 else top_k
        match env.retrieve store question k with
        | Except.error e => Except.error e
        | Except.ok retrieved_docs =>
          match env.complete question with
          | Except.error e => Except.error e
          | Except.ok answer =>
            Except.ok ⟨answer, retrieved_docs.map (fun d => d.page_content)⟩

/-- `query_codebase` of `core/rag_service.py`: the body wrapped in the
`try`/`except` that converts any raised exception into a structured
apologetic answer. -/
def query_codebase (env : QueryEnv) (st : AppState) (reg : Registry) (question : String)
    (top_k : Nat) (current_file : Option String) (cursor_position : Option Nat) : QueryResult :=
  match innerQuery env st reg question top_k current_file cursor_position with
  | Except.ok r => r
  | Except.error e => ⟨"An error occurred while processing your question: " ++ e, []⟩

/-- Outcome of one `git.Repo.clone_from` attempt under
`asyncio.wait_for`: success, a 60-second timeout
(`asyncio.TimeoutError`), or any other raised exception with its
message. -/
inductive GitOutcome where
  | ok : GitOutcome
  | timedOut : GitOutcome
  | raised : String → GitOutcome
deriving DecidableEq, Repr

/-- `REPO_DIR` of `core/cloning_service.py`
(`tempfile.gettempdir()` modelled as `/tmp`). -/
def REPO_DIR : String := "/tmp/codematrix_repos"

/-- The repository name the pipeline derives from the URL:
`os.path.basename(urlparse(repo_url).path).replace(".git", "")`. -/
def repoNameOfUrl (repo_url : String) : String :=
  pyReplace (basename (urlPath repo_url)) ".git" ""

/-- Outcomes of every external call `clone_and_process_repo` makes, in
source order: the three clone attempts, the pre-clone cleanup, the
loader, the splitters, the Chroma build, the metadata walk, plus the
filesystem-existence and wall-clock oracles consumed by
`update_state`. -/
structure PipeEnv where
  m1 : GitOutcome
  m2 : GitOutcome
  m3 : GitOutcome
  priorExists : Bool
  rmFails : Bool
  rmFailTime : Nat
  altTime : Nat
  cloneDirMissing : Bool
  docs : List Doc
  pySplit : Doc → List Doc
  jsSplit : Doc → List Doc
  embedError : Option String
  meta : RMeta
  fs : String → Bool
  clock : Nat → Nat

/-- The prefix every aggregated clone-failure message carries
(`core/cloning_service.py`, line 130). -/
def cloneFailPrefix : String :=
  "Failed to clone repository after multiple attempts: "

/-- The three-method clone sequence of `clone_and_process_repo`
(lines 55-132), returning the local path actually used. Method 1's
timeout is caught by the inner `except asyncio.TimeoutError` handler,
so only a non-timeout exception from method 1 reaches the outer
`except` block that contains methods 2 and 3; likewise method 3 runs
only inside method 2's `except Exception` handler. The final
`if not clone_success: raise` aggregates the recorded cause. -/
def acquireClone (env : PipeEnv) (repo_path : String) : Except String String :=
  match env.m1 with
  | GitOutcome.ok => Except.ok repo_path
  | GitOutcome.timedOut => Except.error (cloneFailPrefix ++ "Clone timed out")
  | GitOutcome.raised _ =>
    match env.m2 with
    | GitOutcome.ok => Except.ok repo_path
    | GitOutcome.timedOut => Except.error (cloneFailPrefix ++ "Alternative clone timed out")
    | GitOutcome.raised _ =>
      match env.m3 with
      | GitOutcome.ok => Except.ok ("/tmp/repo_" ++ toString env.altTime)
      | GitOutcome.timedOut => Except.error (cloneFailPrefix ++ "All cloning methods timed out")
      | GitOutcome.raised e3 => Except.error (cloneFailPrefix ++ e3)

/-- The `except`-handler arguments of the pipeline (line 222):
`status="error", message=str(e), progress=0.0`. -/
def errorArgs (e : String) : UpdateArgs :=
  ⟨some "error", some e, some 0, none, none, none, none⟩

/-- The `finally`-block arguments of the pipeline (line 225):
`is_processing=False`. -/
def releaseArgs : UpdateArgs :=
  ⟨none, none, none, none, none, none, some false⟩

/-- The `try`-block of `clone_and_process_repo` (lines 23-218): locks
the state, derives the repository name, clears that repository's store,
walks the three-method clone sequence, loads, splits under the Python
and then the JavaScript splitter, builds and registers the vector
store, and records the ready state. Returns the state, the registry,
the number of `update_state` calls made, and the raise (if any) that
escapes to the `except` handler. -/
def pipelineBody (env : PipeEnv) (repo_url : String) (st0 : AppState) (reg0 : Registry) :
    AppState × Registry × Nat × Except String Unit :=
  let st1 := update_state env.fs (env.clock 0)
    ⟨none, none, none, none, none, none, some true⟩ st0
  let repo_name := repoNameOfUrl repo_url
  let reg1 := clear_vector_db repo_name reg0
  let st2 := update_state env.fs (env.clock 1)
    ⟨some "cloning", some ("Accessing repository " ++ repo_name ++ "..."),
     some (1/10 : ℚ), none, some repo_name, none, none⟩ st1
  let repo_path :=
    if env.priorExists && env.rmFails then
      REPO_DIR ++ "/" ++ repo_name ++ "_" ++ toString env.rmFailTime
    else REPO_DIR ++ "/" ++ repo_name
  match acquireClone env repo_path with
  | Except.error e => (st2, reg1, 2, Except.error e)
  | Except.ok path_used =>
    let st3 := update_state env.fs (env.clock 2)
      ⟨some "indexing", some "Parsing code files...", some (2/5 : ℚ),
       none, none, none, none⟩ st2
    if env.cloneDirMissing then
      (st3, reg1, 3, Except.error ("Repository directory does not exist: " ++ path_used))
    else if env.docs.isEmpty then
      (st3, reg1, 3, Except.error "No supported code files found in the repository.")
    else
      let texts := (env.docs.map env.pySplit).flatten ++ (env.docs.map env.jsSplit).flatten
      let st4 := update_state env.fs (env.clock 3)
        ⟨some "indexing",
         some ("Creating embeddings for " ++ toString texts.length ++ " code chunks..."),
         some (7/10 : ℚ), none, none, none, none⟩ st3
      match env.embedError with
      | some e => (st4, reg1, 4, Except.error e)
      | none =>
        let reg2 := store_vector_db repo_name ⟨texts⟩ reg1
        let st5 := update_state env.fs (env.clock 4)
          ⟨some "ready", some "Repository successfully indexed and ready to be queried.",
           some (1 : ℚ), some path_used, none, some env.meta, none⟩ st4
        (st5, reg2, 5, Except.ok ())

/-- `clone_and_process_repo` of `core/cloning_service.py`: the body,
then the `except` handler writing the error state, then the `finally`
block that always releases `is_processing`. -/
def clone_and_process_repo (env : PipeEnv) (repo_url : String) (st0 : AppState)
    (reg0 : Registry) : AppState × Registry :=
  let r := pipelineBody env repo_url st0 reg0
  let st1 := match r.2.2.2 with
    | Except.ok _ => r.1
    | Except.error e => update_state env.fs (env.clock r.2.2.1) (errorArgs e) r.1
  (update_state env.fs (env.clock (r.2.2.1 + 1)) releaseArgs st1, r.2.1)

/-- Result of the `/clone` endpoint (`main.py`, `clone_repository`):
either the synchronous busy rejection (an `HTTPException` with status
code and detail) or the accepted response. -/
inductive CloneEndpointResult where
  | busy : Nat → String → CloneEndpointResult
  | accepted : Bool → String → String → CloneEndpointResult
deriving DecidableEq, Repr

/-- `clone_repository` of `main.py` (lines 90-117): reads the state; if
`is_processing` is set it raises the 409 busy `HTTPException` before
touching anything; otherwise it clears every vector store and schedules
the background pipeline task. The final `Bool` records whether the
background task was scheduled. -/
def clone_repository (st : AppState) (reg : Registry) :
    CloneEndpointResult × AppState × Registry × Bool :=
  if st.is_processing then
    (CloneEndpointResult.busy 409 "Another repository is currently being processed. Please wait.",
     st, reg, false)
  else
    (CloneEndpointResult.accepted true "Repository cloning started. Check /status for progress." "",
     st, clear_all_vector_dbs reg, true)

/-- A sequence of `update_state` calls, each paired with the wall-clock
reading `datetime.datetime.now()` delivers during that call, executed
in order from a starting state. -/
def run_updates (fs : String → Bool) (s : AppState) : List (UpdateArgs × Nat) → AppState
  | [] => s
  | c :: rest => run_updates fs (update_state fs c.2 c.1 s) rest

/-- Claim C2 as stated by the spec: when the primary and the secondary
clone attempts both time out and the tertiary attempt succeeds, the
acquisition returns the alternate time-suffixed path and no exception
surfaces. -/
def claimC2Statement : Prop :=
  ∀ (env : PipeEnv) (repo_path : String),
    env.m1 = GitOutcome.timedOut → env.m2 = GitOutcome.timedOut → env.m3 = GitOutcome.ok →
    acquireClone env repo_path = Except.ok ("/tmp/repo_" ++ toString env.altTime)

/-- Claim C7 as stated by the spec: whenever an update supplies
`repo_path` and no explicit `repo_name`, the stored `repo_name` becomes
the terminal path segment of the supplied location. -/
def claimC7Statement : Prop :=
  ∀ (fs : String → Bool) (now : Nat) (a : UpdateArgs) (s : AppState) (p : String),
    a.repo_path = some p → a.repo_name = none →
    (update_state fs now a s).repo_name = some (basename p)

/-- A concrete fault environment: both the primary and the secondary
clone attempts time out and the tertiary attempt would succeed. -/
def envBothTimeoutW : PipeEnv where
  m1 := GitOutcome.timedOut
  m2 := GitOutcome.timedOut
  m3 := GitOutcome.ok
  priorExists := false
  rmFails := false
  rmFailTime := 0
  altTime := 1700000000
  cloneDirMissing := false
  docs := []
  pySplit := fun _ => []
  jsSplit := fun _ => []
  embedError := none
  meta := []
  fs := fun _ => false
  clock := fun _ => 0

/-- A concrete environment where cloning succeeds but the loader yields
zero documents. -/
def envDocsEmptyW : PipeEnv where
  m1 := GitOutcome.ok
  m2 := GitOutcome.ok
  m3 := GitOutcome.ok
  priorExists := false
  rmFails := false
  rmFailTime := 0
  altTime := 0
  cloneDirMissing := false
  docs := []
  pySplit := fun _ => []
  jsSplit := fun _ => []
  embedError := none
  meta := []
  fs := fun _ => false
  clock := fun k => k

/-- A concrete environment for a fully successful pipeline run over a
single one-document repository whose splitters are the identity. -/
def envSuccessW : PipeEnv where
  m1 := GitOutcome.ok
  m2 := GitOutcome.ok
  m3 := GitOutcome.ok
  priorExists := false
  rmFails := false
  rmFailTime := 0
  altTime := 0
  cloneDirMissing := false
  docs := [⟨"def f(x): return x", "main.py"⟩]
  pySplit := fun d => [d]
  jsSplit := fun d => [d]
  embedError := none
  meta := []
  fs := fun _ => false
  clock := fun k => k

/-- A concrete fault environment: the primary and secondary clone
attempts raise non-timeout errors and the tertiary attempt succeeds. -/
def envRaisedW : PipeEnv where
  m1 := GitOutcome.raised "remote authentication failed"
  m2 := GitOutcome.raised "remote authentication failed again"
  m3 := GitOutcome.ok
  priorExists := false
  rmFails := false
  rmFailTime := 0
  altTime := 1700000001
  cloneDirMissing := false
  docs := []
  pySplit := fun _ => []
  jsSplit := fun _ => []
  embedError := none
  meta := []
  fs := fun _ => false
  clock := fun _ => 0

/-- A concrete query environment in which both external calls raise. -/
def envQueryFailW : QueryEnv where
  retrieve := fun _ _ _ => Except.error "embedding backend unreachable"
  complete := fun _ => Except.error "completion backend unreachable"

/-- An `update_state` call supplying only a repository location. -/
def argsPathOnlyW : UpdateArgs :=
  ⟨none, none, none, some "/data/repos/widget", none, none, none⟩

/-- A registry whose keys only fuzzily match the id `app`. -/
def regFuzzyW : Registry :=
  [("my-app", ⟨[⟨"a", "a.py"⟩]⟩), ("app-v2", ⟨[⟨"b", "b.py"⟩]⟩)]

/-- A registry with a single key sharing no containment with `app`. -/
def regNoMatchW : Registry :=
  [("zzz", ⟨[⟨"z", "z.py"⟩]⟩)]

/-- A two-call update sequence: a cloning update then a ready update. -/
def callsW : List (UpdateArgs × Nat) :=
  [(⟨some "cloning", some "Accessing repository widget...", some (1/10 : ℚ),
     none, some "widget", none, some true⟩, 3),
   (⟨some "ready", some "Repository successfully indexed and ready to be queried.",
     some (1 : ℚ), none, none, none, some false⟩, 7)]

theorem oOr_some {α : Type} (v : α) (y : Option α) : oOr (some v) y = some v := rfl

theorem oOr_none {α : Type} (y : Option α) : oOr none y = y := rfl

theorem oOr_assoc {α : Type} (x y z : Option α) : oOr (oOr x y) z = oOr x (oOr y z) := by
  cases x <;> cases y <;> rfl

theorem update_state_status (fs : String → Bool) (now : Nat) (a : UpdateArgs) (s : AppState) :
    (update_state fs now a s).status = a.status.getD s.status := by
  unfold update_state
  cases a.status <;> cases a.message <;> cases a.progress <;> cases a.repo_path <;>
    cases a.repo_name <;> cases a.repo_metadata <;> cases a.is_processing <;>
    (try rfl) <;> (dsimp only; split <;> rfl)

theorem update_state_message (fs : String → Bool) (now : Nat) (a : UpdateArgs) (s : AppState) :
    (update_state fs now a s).message = a.message.getD s.message := by
  unfold update_state
  cases a.status <;> cases a.message <;> cases a.progress <;> cases a.repo_path <;>
    cases a.repo_name <;> cases a.repo_metadata <;> cases a.is_processing <;>
    (try rfl) <;> (dsimp only; split <;> rfl)

theorem update_state_progress (fs : String → Bool) (now : Nat) (a : UpdateArgs) (s : AppState) :
    (update_state fs now a s).progress = a.progress.getD s.progress := by
  unfold update_state
  cases a.status <;> cases a.message <;> cases a.progress <;> cases a.repo_path <;>
    cases a.repo_name <;> cases a.repo_metadata <;> cases a.is_processing <;>
    (try rfl) <;> (dsimp only; split <;> rfl)

theorem update_state_repo_path (fs : String → Bool) (now : Nat) (a : UpdateArgs) (s : AppState) :
    (update_state fs now a s).repo_path = oOr a.repo_path s.repo_path := by
  unfold update_state
  cases a.status <;> cases a.message <;> cases a.progress <;> cases a.repo_path <;>
    cases a.repo_name <;> cases a.repo_metadata <;> cases a.is_processing <;>
    (try rfl) <;> (dsimp only; split <;> rfl)

theorem update_state_repo_name (fs : String → Bool) (now : Nat) (a : UpdateArgs) (s : AppState) :
    (update_state fs now a s).repo_name = oOr (effectiveName fs a) s.repo_name := by
  unfold update_state effectiveName
  cases a.status <;> cases a.message <;> cases a.progress <;> cases a.repo_path <;>
    cases a.repo_name <;> cases a.repo_metadata <;> cases a.is_processing <;>
    (try rfl) <;> (dsimp only [oOr]; split <;> simp_all)

theorem update_state_repo_metadata (fs : String → Bool) (now : Nat) (a : UpdateArgs) (s : AppState) :
    (update_state fs now a s).repo_metadata = a.repo_metadata.getD s.repo_metadata := by
  unfold update_state
  cases a.status <;> cases a.message <;> cases a.progress <;> cases a.repo_path <;>
    cases a.repo_name <;> cases a.repo_metadata <;> cases a.is_processing <;>
    (try rfl) <;> (dsimp only; split <;> rfl)

theorem update_state_is_processing (fs : String → Bool) (now : Nat) (a : UpdateArgs) (s : AppState) :
    (update_state fs now a s).is_processing = a.is_processing.getD s.is_processing := by
  unfold update_state
  cases a.status <;> cases a.message <;> cases a.progress <;> cases a.repo_path <;>
    cases a.repo_name <;> cases a.repo_metadata <;> cases a.is_processing <;>
    (try rfl) <;> (dsimp only; split <;> rfl)

theorem update_state_last_updated (fs : String → Bool) (now : Nat) (a : UpdateArgs) (s : AppState) :
    (update_state fs now a s).last_updated = some now := by
  unfold update_state
  cases a.status <;> cases a.message <;> cases a.progress <;> cases a.repo_path <;>
    cases a.repo_name <;> cases a.repo_metadata <;> cases a.is_processing <;> rfl

theorem get_store_roundtrip (R : String) (E : Store) (reg : Registry) :
    get_vector_db R (store_vector_db R E reg) = some E := by
  induction reg with
  | nil => simp [store_vector_db, get_vector_db, List.find?]
  | cons kv rest ih =>
    by_cases h : kv.1 == R
    · simp [store_vector_db, h, get_vector_db, List.find?]
    · simpa [store_vector_db, h, get_vector_db, List.find?] using ih

theorem find?_first {α : Type} (p : α → Bool) :
    ∀ (l : List α) (i : Nat) (hi : i < l.length),
      p (l.get ⟨i, hi⟩) = true →
      (∀ j (hj : j < i), p (l.get ⟨j, Nat.lt_trans hj hi⟩) = false) →
      l.find? p = some (l.get ⟨i, hi⟩)
  | [], i, hi, _, _ => absurd hi (Nat.not_lt_zero i)
  | a :: l, 0, _, hp, _ => by
    have hpa : p a = true := hp
    simp [List.find?, hpa]
  | a :: l, i + 1, hi, hp, hbefore => by
    have ha : p a = false := hbefore 0 (Nat.zero_lt_succ i)
    have ih := find?_first p l i (Nat.lt_of_succ_lt_succ hi) hp
      (fun j hj => hbefore (j + 1) (Nat.succ_lt_succ hj))
    simpa [List.find?, ha] using ih

theorem infix_append_left {α : Type} {x A : List α} (h : x <:+: A) (B : List α) :
    x <:+: A ++ B := by
  obtain ⟨s, t, rfl⟩ := h
  exact ⟨s, t ++ B, by simp⟩

theorem infix_append_right {α : Type} {x B : List α} (h : x <:+: B) (A : List α) :
    x <:+: A ++ B := by
  obtain ⟨s, t, rfl⟩ := h
  exact ⟨A ++ s, t, by simp⟩

theorem split_infix_flatten {α β : Type} (f : α → List β) :
    ∀ (l : List α) (d : α), d ∈ l → f d <:+: (l.map f).flatten
  | [], d, hd => absurd hd (List.not_mem_nil d)
  | a :: l, d, hd => by
    rcases List.mem_cons.mp hd with h | h
    · subst h
      exact ⟨[], (l.map f).flatten, by simp⟩
    · exact infix_append_right (split_infix_flatten f l d h) (f a)

/-- C1: every run of `clone_and_process_repo` — success, acquisition
failure or indexing failure — ends with `is_processing = false`,
because the `finally` block performs the releasing `update_state`
unconditionally, whatever branch or exception came before. -/
theorem pipeline_always_releases_processing_flag (env : PipeEnv) (repo_url : String)
    (st0 : AppState) (reg0 : Registry) :
    (clone_and_process_repo env repo_url st0 reg0).1.is_processing = false := by
  simp [clone_and_process_repo, update_state_is_processing, releaseArgs]

/-- C9: an entry registered under id `R` is retrievable by an exact
lookup of `R`; after `clear_all_vector_dbs` no id retrieves anything,
by exact lookup, by the fuzzy containment loop, or by the combined
resolution step. -/
theorem registry_roundtrip_and_clear (R : String) (E : Store) (reg : Registry) (R' : String) :
    get_vector_db R (store_vector_db R E reg) = some E ∧
    get_vector_db R' (clear_all_vector_dbs reg) = none ∧
    fuzzyFind R' (clear_all_vector_dbs reg) = none ∧
    lookupStore R' (clear_all_vector_dbs reg) = none :=
  ⟨get_store_roundtrip R E reg, rfl, rfl, rfl⟩

/-- C4: a `/clone` request arriving while `is_processing` is set is
rejected synchronously with the 409 busy error, the background task is
not scheduled, and neither the process state nor the registry is
mutated. -/
theorem busy_rejection_leaves_state_unchanged (st : AppState) (reg : Registry)
    (h : st.is_processing = true) :
    clone_repository st reg =
      (CloneEndpointResult.busy 409 "Another repository is currently being processed. Please wait.",
       st, reg, false) := by
  simp [clone_repository, h]

theorem busy_rejection_leaves_state_unchanged_witness :
    clone_repository { app_state_init with is_processing := true } regNoMatchW =
      (CloneEndpointResult.busy 409 "Another repository is currently being processed. Please wait.",
       { app_state_init with is_processing := true }, regNoMatchW, false) :=
  busy_rejection_leaves_state_unchanged { app_state_init with is_processing := true } regNoMatchW rfl

theorem str_data_append (a b : String) : (a ++ b).data = a.data ++ b.data := rfl

/-- C3: whenever the pipeline body raises — acquisition exhausted, the
cloned directory missing, the loader yielding zero documents (raised
as the no-supported-files error rather than building a silent empty
index), or the embedding build failing — the run ends with
`status = "error"`, `progress = 0.0` and `message` equal to the raised
failure cause. -/
theorem pipeline_failure_sets_error_state (env : PipeEnv) (repo_url : String)
    (st0 : AppState) (reg0 : Registry) (e : String)
    (h : (pipelineBody env repo_url st0 reg0).2.2.2 = Except.error e) :
    (clone_and_process_repo env repo_url st0 reg0).1.status = "error" ∧
    (clone_and_process_repo env repo_url st0 reg0).1.progress = 0 ∧
    (clone_and_process_repo env repo_url st0 reg0).1.message = e := by
  refine ⟨?_, ?_, ?_⟩ <;>
    simp [clone_and_process_repo, h, update_state_status, update_state_progress,
      update_state_message, errorArgs, releaseArgs]

theorem pipeline_failure_sets_error_state_witness :
    (pipelineBody envDocsEmptyW "https://github.com/acme/widget.git" app_state_init []).2.2.2 =
      Except.error "No supported code files found in the repository." ∧
    ((clone_and_process_repo envDocsEmptyW "https://github.com/acme/widget.git"
        app_state_init []).1.status = "error" ∧
     (clone_and_process_repo envDocsEmptyW "https://github.com/acme/widget.git"
        app_state_init []).1.progress = 0 ∧
     (clone_and_process_repo envDocsEmptyW "https://github.com/acme/widget.git"
        app_state_init []).1.message = "No supported code files found in the repository.") :=
  ⟨rfl, pipeline_failure_sets_error_state envDocsEmptyW "https://github.com/acme/widget.git"
    app_state_init [] "No supported code files found in the repository." rfl⟩

/-- C2 counterexample: the claim is false on the code. A timeout of the
primary attempt is caught by the inner `except asyncio.TimeoutError`
handler, so the `except Exception` block containing the secondary and
tertiary attempts never runs: with the primary and secondary attempts
timing out and the tertiary able to succeed, acquisition fails with
the aggregated timeout message instead of returning the alternate
path. -/
theorem both_timeouts_never_reach_tertiary : ¬ claimC2Statement := by
  intro h
  have h2 := h envBothTimeoutW "/tmp/codematrix_repos/widget" rfl rfl rfl
  exact absurd h2 (by simp [acquireClone, envBothTimeoutW, cloneFailPrefix])

/-- C2 amended: the tertiary attempt into the alternate time-suffixed
path is reached when the primary and secondary attempts fail with
non-timeout errors; when it then succeeds, acquisition returns the
alternate path — never equal to any deterministic path under the
scratch repos directory — and no exception surfaces. (A timeout at the
primary or secondary attempt instead aborts the chain, as the
counterexample shows.) -/
theorem tertiary_after_raised_failures_returns_alternate_path
    (env : PipeEnv) (repo_path : String) (e1 e2 : String)
    (h1 : env.m1 = GitOutcome.raised e1) (h2 : env.m2 = GitOutcome.raised e2)
    (h3 : env.m3 = GitOutcome.ok) :
    acquireClone env repo_path = Except.ok ("/tmp/repo_" ++ toString env.altTime) ∧
    ∀ name : String, "/tmp/repo_" ++ toString env.altTime ≠ REPO_DIR ++ "/" ++ name := by
  constructor
  · simp [acquireClone, h1, h2, h3]
  · intro name hcontra
    have hd := congrArg String.data hcontra
    rw [str_data_append, str_data_append, str_data_append] at hd
    simp [REPO_DIR] at hd

theorem tertiary_after_raised_failures_returns_alternate_path_witness :
    acquireClone envRaisedW "/tmp/codematrix_repos/widget" =
      Except.ok ("/tmp/repo_" ++ toString envRaisedW.altTime) ∧
    "/tmp/repo_" ++ toString envRaisedW.altTime ≠ REPO_DIR ++ "/" ++ "widget" :=
  ⟨(tertiary_after_raised_failures_returns_alternate_path envRaisedW "/tmp/codematrix_repos/widget"
      "remote authentication failed" "remote authentication failed again" rfl rfl rfl).1,
   (tertiary_after_raised_failures_returns_alternate_path envRaisedW "/tmp/codematrix_repos/widget"
      "remote authentication failed" "remote authentication failed again" rfl rfl rfl).2 "widget"⟩

/-- C7 counterexample: the claim is false on the code. Auto-derivation
goes through `_get_repo_name_from_path`, which returns `None` when the
supplied location does not exist on the filesystem, so an update that
supplies a location without an explicit id leaves the stored id
unchanged whenever the location is absent on disk — here the update
supplies `/data/repos/widget`, no explicit id, the path does not
exist, and the stored `repo_name` stays `none` instead of becoming
`some "widget"`. -/
theorem repo_name_not_derived_for_missing_path : ¬ claimC7Statement := by
  intro h
  have h2 := h (fun _ => false) 0 argsPathOnlyW app_state_init "/data/repos/widget" rfl rfl
  rw [update_state_repo_name] at h2
  exact absurd h2 (by simp [effectiveName, argsPathOnlyW, _get_repo_name_from_path, oOr,
    app_state_init])

/-- C7 amended: during an update supplying `repo_path`, an explicitly
supplied id is always the one stored; with no explicit id, the id is
auto-derived from the location's terminal path segment exactly when the
location is non-empty and exists on the filesystem, and is left
unchanged otherwise. -/
theorem repo_name_derivation_requires_existing_path
    (fs : String → Bool) (now : Nat) (a : UpdateArgs) (s : AppState) (p : String)
    (hp : a.repo_path = some p) :
    (∀ n, a.repo_name = some n → (update_state fs now a s).repo_name = some n) ∧
    (a.repo_name = none →
      (update_state fs now a s).repo_name =
        if p ≠ "" ∧ fs p then some (basename p) else s.repo_name) := by
  constructor
  · intro n hn
    rw [update_state_repo_name]
    simp [effectiveName, hn, oOr]
  · intro hn
    rw [update_state_repo_name]
    simp only [effectiveName, hn, hp, _get_repo_name_from_path]
    split <;> simp [oOr]

theorem repo_name_derivation_requires_existing_path_witness :
    (update_state (fun _ => true) 5 argsPathOnlyW app_state_init).repo_name = some "widget" := by
  have h := (repo_name_derivation_requires_existing_path (fun _ => true) 5 argsPathOnlyW
    app_state_init "/data/repos/widget" rfl).2 rfl
  rw [h]
  decide

/-- C5: the query pipeline never raises to its caller for any question,
`top_k`, focus file, cursor position, state and registry — including
the empty registry, a recorded id with no matching store, and a
registry whose keys only fuzzily match — because the one `except`
handler converts every raise into a structured apologetic answer: the
result is always the body's structured result or the apology record,
and with an empty registry it is the fixed no-repository-loaded answer
with an empty retrieved set. -/
theorem query_codebase_never_raises (env : QueryEnv) (st : AppState) (reg : Registry)
    (question : String) (top_k : Nat) (current_file : Option String)
    (cursor_position : Option Nat) :
    (reg = [] →
      query_codebase env st reg question top_k current_file cursor_position =
        ⟨noRepoAnswer, []⟩) ∧
    (∀ r, innerQuery env st reg question top_k current_file cursor_position = Except.ok r →
      query_codebase env st reg question top_k current_file cursor_position = r) ∧
    (∀ e, innerQuery env st reg question top_k current_file cursor_position = Except.error e →
      query_codebase env st reg question top_k current_file cursor_position =
        ⟨"An error occurred while processing your question: " ++ e, []⟩) := by
  refine ⟨?_, ?_, ?_⟩
  · intro hreg
    subst hreg
    simp [query_codebase, innerQuery]
  · intro r hr
    simp [query_codebase, hr]
  · intro e he
    simp [query_codebase, he]

theorem query_codebase_never_raises_witness :
    query_codebase envQueryFailW app_state_init [] "what does this do?" 5 none none =
      ⟨noRepoAnswer, []⟩ :=
  (query_codebase_never_raises envQueryFailW app_state_init [] "what does this do?"
    5 none none).1 rfl

/-- C8: when the exact registry lookup misses, the fuzzy loop returns
the entry of the first stored key (in insertion-iteration order) with
substring containment in either direction between the requested id and
the stored key; when no stored key has such containment, resolution
yields no entry and the query returns the no-index-found answer. -/
theorem fuzzy_lookup_first_containment_match (name : String) (reg : Registry)
    (hexact : get_vector_db name reg = none) :
    ((∀ kv ∈ reg, (pyContains name kv.1 || pyContains kv.1 name) = false) →
      lookupStore name reg = none) ∧
    (∀ i (hi : i < reg.length),
      (pyContains name (reg.get ⟨i, hi⟩).1 || pyContains (reg.get ⟨i, hi⟩).1 name) = true →
      (∀ j (hj : j < i),
        (pyContains name (reg.get ⟨j, Nat.lt_trans hj hi⟩).1 ||
          pyContains (reg.get ⟨j, Nat.lt_trans hj hi⟩).1 name) = false) →
      lookupStore name reg = some (reg.get ⟨i, hi⟩).2) ∧
    (∀ (env : QueryEnv) (st : AppState) (question : String) (top_k : Nat)
      (cf : Option String) (cp : Option Nat),
      st.repo_name = some name → name ≠ "" → reg ≠ [] →
      (∀ kv ∈ reg, (pyContains name kv.1 || pyContains kv.1 name) = false) →
      query_codebase env st reg question top_k cf cp = ⟨noIndexAnswer name, []⟩) := by
  have hnofuzzy : (∀ kv ∈ reg, (pyContains name kv.1 || pyContains kv.1 name) = false) →
      lookupStore name reg = none := by
    intro hnone
    have hf : fuzzyFind name reg = none :=
      List.find?_eq_none.mpr (fun kv hkv => by simp [hnone kv hkv])
    simp [lookupStore, hexact, hf]
  refine ⟨hnofuzzy, ?_, ?_⟩
  · intro i hi hp hbefore
    have hf := find?_first (fun kv => pyContains name kv.1 || pyContains kv.1 name)
      reg i hi hp hbefore
    simp [lookupStore, hexact, fuzzyFind, hf]
  · intro env st question top_k cf cp hrn hne hreg hnone
    have hl := hnofuzzy hnone
    have hb : (name == "") = false := beq_eq_false_iff_ne.mpr hne
    cases reg with
    | nil => exact absurd rfl hreg
    | cons kv rest =>
      simp [query_codebase, innerQuery, hrn, pyFalsy, hb, hl]

theorem fuzzy_lookup_first_containment_match_witness :
    lookupStore "app" regFuzzyW = some ⟨[⟨"a", "a.py"⟩]⟩ ∧
    query_codebase envQueryFailW { app_state_init with repo_name := some "app" } regNoMatchW
      "where is the entry point?" 5 none none = ⟨noIndexAnswer "app", []⟩ := by
  constructor
  · exact (fuzzy_lookup_first_containment_match "app" regFuzzyW (by decide)).2.1 0
      (by decide) (by decide) (fun j hj => absurd hj (Nat.not_lt_zero j))
  · exact (fuzzy_lookup_first_containment_match "app" regNoMatchW (by decide)).2.2 envQueryFailW
      { app_state_init with repo_name := some "app" } "where is the entry point?" 5 none none
      rfl (by decide) (by decide) (by decide)

/-- C10: on every successful indexing run, the chunk sequence the
pipeline embeds and registers is the Python-splitter output over all
loaded documents followed by the JavaScript-splitter output over the
same documents, so every document contributes chunks under both
splitters and its content enters the stored index twice. -/
theorem chunks_are_double_split_concat (env : PipeEnv) (repo_url : String)
    (st0 : AppState) (reg0 : Registry)
    (hm1 : env.m1 = GitOutcome.ok) (hdm : env.cloneDirMissing = false)
    (hdocs : env.docs ≠ []) (hembed : env.embedError = none) :
    (get_vector_db (repoNameOfUrl repo_url) (clone_and_process_repo env repo_url st0 reg0).2 =
      some ⟨(env.docs.map env.pySplit).flatten ++ (env.docs.map env.jsSplit).flatten⟩) ∧
    (∀ d ∈ env.docs,
      env.pySplit d <:+:
        (env.docs.map env.pySplit).flatten ++ (env.docs.map env.jsSplit).flatten ∧
      env.jsSplit d <:+:
        (env.docs.map env.pySplit).flatten ++ (env.docs.map env.jsSplit).flatten) := by
  constructor
  · have hempty : env.docs.isEmpty = false := by
      cases hd : env.docs with
      | nil => exact absurd hd hdocs
      | cons a l => simp [hd]
    simp [clone_and_process_repo, pipelineBody, acquireClone, hm1, hdm, hembed, hempty]
    exact get_store_roundtrip _ _ _
  · intro d hd
    exact ⟨infix_append_left (split_infix_flatten env.pySplit env.docs d hd) _,
           infix_append_right (split_infix_flatten env.jsSplit env.docs d hd) _⟩

theorem chunks_are_double_split_concat_witness :
    get_vector_db "widget"
      (clone_and_process_repo envSuccessW "https://github.com/acme/widget.git"
        app_state_init []).2 =
      some ⟨[⟨"def f(x): return x", "main.py"⟩, ⟨"def f(x): return x", "main.py"⟩]⟩ :=
  (chunks_are_double_split_concat envSuccessW "https://github.com/acme/widget.git"
    app_state_init [] rfl rfl (by decide) rfl).1

theorem run_updates_status (fs : String → Bool) :
    ∀ (cs : List (UpdateArgs × Nat)) (s : AppState),
      (run_updates fs s cs).status = (lastSome (fun c => c.1.status) cs).getD s.status
  | [], _ => rfl
  | c :: rest, s => by
    have ih := run_updates_status fs rest (update_state fs c.2 c.1 s)
    simp only [run_updates, lastSome]
    rw [ih, update_state_status]
    cases hl : lastSome (fun c => c.1.status) rest <;> simp [oOr]

theorem run_updates_message (fs : String → Bool) :
    ∀ (cs : List (UpdateArgs × Nat)) (s : AppState),
      (run_updates fs s cs).message = (lastSome (fun c => c.1.message) cs).getD s.message
  | [], _ => rfl
  | c :: rest, s => by
    have ih := run_updates_message fs rest (update_state fs c.2 c.1 s)
    simp only [run_updates, lastSome]
    rw [ih, update_state_message]
    cases hl : lastSome (fun c => c.1.message) rest <;> simp [oOr]

theorem run_updates_progress (fs : String → Bool) :
    ∀ (cs : List (UpdateArgs × Nat)) (s : AppState),
      (run_updates fs s cs).progress = (lastSome (fun c => c.1.progress) cs).getD s.progress
  | [], _ => rfl
  | c :: rest, s => by
    have ih := run_updates_progress fs rest (update_state fs c.2 c.1 s)
    simp only [run_updates, lastSome]
    rw [ih, update_state_progress]
    cases hl : lastSome (fun c => c.1.progress) rest <;> simp [oOr]

theorem run_updates_repo_path (fs : String → Bool) :
    ∀ (cs : List (UpdateArgs × Nat)) (s : AppState),
      (run_updates fs s cs).repo_path = oOr (lastSome (fun c => c.1.repo_path) cs) s.repo_path
  | [], _ => rfl
  | c :: rest, s => by
    have ih := run_updates_repo_path fs rest (update_state fs c.2 c.1 s)
    simp only [run_updates, lastSome]
    rw [ih, update_state_repo_path, oOr_assoc]

theorem run_updates_repo_name (fs : String → Bool) :
    ∀ (cs : List (UpdateArgs × Nat)) (s : AppState),
      (run_updates fs s cs).repo_name =
        oOr (lastSome (fun c => effectiveName fs c.1) cs) s.repo_name
  | [], _ => rfl
  | c :: rest, s => by
    have ih := run_updates_repo_name fs rest (update_state fs c.2 c.1 s)
    simp only [run_updates, lastSome]
    rw [ih, update_state_repo_name, oOr_assoc]

theorem run_updates_repo_metadata (fs : String → Bool) :
    ∀ (cs : List (UpdateArgs × Nat)) (s : AppState),
      (run_updates fs s cs).repo_metadata =
        (lastSome (fun c => c.1.repo_metadata) cs).getD s.repo_metadata
  | [], _ => rfl
  | c :: rest, s => by
    have ih := run_updates_repo_metadata fs rest (update_state fs c.2 c.1 s)
    simp only [run_updates, lastSome]
    rw [ih, update_state_repo_metadata]
    cases hl : lastSome (fun c => c.1.repo_metadata) rest <;> simp [oOr]

theorem run_updates_is_processing (fs : String → Bool) :
    ∀ (cs : List (UpdateArgs × Nat)) (s : AppState),
      (run_updates fs s cs).is_processing =
        (lastSome (fun c => c.1.is_processing) cs).getD s.is_processing
  | [], _ => rfl
  | c :: rest, s => by
    have ih := run_updates_is_processing fs rest (update_state fs c.2 c.1 s)
    simp only [run_updates, lastSome]
    rw [ih, update_state_is_processing]
    cases hl : lastSome (fun c => c.1.is_processing) rest <;> simp [oOr]

theorem run_updates_stamp (fs : String → Bool) :
    ∀ (cs : List (UpdateArgs × Nat)) (s : AppState) (n : Nat) (hn : n < cs.length),
      (run_updates fs s (cs.take (n + 1))).last_updated = some (cs.get ⟨n, hn⟩).2
  | [], _, n, hn => absurd hn (Nat.not_lt_zero n)
  | c :: rest, s, 0, _ => by
    simp [List.take, run_updates, update_state_last_updated]
  | c :: rest, s, n + 1, hn => by
    have ih := run_updates_stamp fs rest (update_state fs c.2 c.1 s) n
      (Nat.lt_of_succ_lt_succ hn)
    simpa [List.take, run_updates] using ih

/-- C6: executing any sequence of `update_state` calls from any
starting state yields the starting state overridden field-by-field in
call order — each field ends at the value delivered by the latest call
that supplied it (for `repo_name`, the explicitly supplied id or the
one auto-derived from a supplied location), and a field no call
supplied keeps its starting value (`lastSome` returning `none`);
`last_updated` is stamped on every call with that call's clock reading,
so along a non-decreasing clock the stamps are non-decreasing. -/
theorem update_state_fold_semantics (fs : String → Bool) (s : AppState)
    (cs : List (UpdateArgs × Nat)) :
    ((run_updates fs s cs).status = (lastSome (fun c => c.1.status) cs).getD s.status) ∧
    ((run_updates fs s cs).message = (lastSome (fun c => c.1.message) cs).getD s.message) ∧
    ((run_updates fs s cs).progress = (lastSome (fun c => c.1.progress) cs).getD s.progress) ∧
    ((run_updates fs s cs).repo_path =
      oOr (lastSome (fun c => c.1.repo_path) cs) s.repo_path) ∧
    ((run_updates fs s cs).repo_name =
      oOr (lastSome (fun c => effectiveName fs c.1) cs) s.repo_name) ∧
    ((run_updates fs s cs).repo_metadata =
      (lastSome (fun c => c.1.repo_metadata) cs).getD s.repo_metadata) ∧
    ((run_updates fs s cs).is_processing =
      (lastSome (fun c => c.1.is_processing) cs).getD s.is_processing) ∧
    (∀ n (hn : n < cs.length),
      (run_updates fs s (cs.take (n + 1))).last_updated = some (cs.get ⟨n, hn⟩).2) ∧
    (∀ i j (hi : i < cs.length) (hj : j < cs.length), i ≤ j →
      (cs.get ⟨i, hi⟩).2 ≤ (cs.get ⟨j, hj⟩).2 →
      (run_updates fs s (cs.take (i + 1))).last_updated.getD 0 ≤
        (run_updates fs s (cs.take (j + 1))).last_updated.getD 0) := by
  refine ⟨run_updates_status fs cs s, run_updates_message fs cs s,
    run_updates_progress fs cs s, run_updates_repo_path fs cs s,
    run_updates_repo_name fs cs s, run_updates_repo_metadata fs cs s,
    run_updates_is_processing fs cs s, run_updates_stamp fs cs s, ?_⟩
  intro i j hi hj _ hc
  rw [run_updates_stamp fs cs s i hi, run_updates_stamp fs cs s j hj]
  simpa using hc

theorem update_state_fold_semantics_witness :
    (run_updates (fun _ => false) app_state_init callsW).status = "ready" ∧
    (run_updates (fun _ => false) app_state_init callsW).repo_name = some "widget" ∧
    (run_updates (fun _ => false) app_state_init callsW).message =
      "Repository successfully indexed and ready to be queried." ∧
    (run_updates (fun _ => false) app_state_init (callsW.take 1)).last_updated = some 3 ∧
    (run_updates (fun _ => false) app_state_init (callsW.take 2)).last_updated = some 7 ∧
    (run_updates (fun _ => false) app_state_init (callsW.take 1)).last_updated.getD 0 ≤
      (run_updates (fun _ => false) app_state_init (callsW.take 2)).last_updated.getD 0 := by
  refine ⟨?_, ?_, ?_, ?_, ?_, ?_⟩
  · exact ((update_state_fold_semantics (fun _ => false) app_state_init callsW).1).trans
      (by decide)
  · exact ((update_state_fold_semantics (fun _ => false) app_state_init
      callsW).2.2.2.2.1).trans (by decide)
  · exact ((update_state_fold_semantics (fun _ => false) app_state_init callsW).2.1).trans
      (by decide)
  · exact (update_state_fold_semantics (fun _ => false) app_state_init
      callsW).2.2.2.2.2.2.2.1 0 (by decide)
  · exact (update_state_fold_semantics (fun _ => false) app_state_init
      callsW).2.2.2.2.2.2.2.1 1 (by decide)
  · exact (update_state_fold_semantics (fun _ => false) app_state_init
      callsW).2.2.2.2.2.2.2.2 0 1 (by decide) (by decide) (by decide) (by decide)

end CodeMatrix
